import Mathlib

/-!
# Wifi-Research: the measurement layer of `mlo_loss.cc`

A shallow embedding of the packet callbacks and of the end-of-run summary of
`src/mlo_loss.cc` (and of the station-to-channel loop it shares with
`src/mlo_basic.cc`), followed by theorems about them.

Conventions of the embedding

* `uint32_t` values are natural numbers; every arithmetic operation the source
  performs on them is reduced modulo `2^32` (`UINT32_MOD`).
* `double` values are `Dbl`: a finite value is an exact rational (rounding,
  overflow to infinity and the sign of zero are not modelled), and the special
  values that IEEE-754 division by zero produces (the infinities and NaN) are
  kept, so that an unguarded division is visible.
* `std::map<uint32_t, V>` is a key-ordered association list (`StdMap V`).
* The output stream `outFile` is the list of records written so far.
* The value drawn from `lossDistribution (generator)` and the value of
  `Simulator::Now ().GetSeconds ()` are inputs of the callbacks.
-/

namespace MloLoss

/-! ## Machine numbers -/

/-- Number of values of a `uint32_t`. -/
def UINT32_MOD : Nat := 4294967296

/-- Model of the C++ `double`: exact rationals plus the IEEE-754 special values. -/
inductive Dbl where
  | fin (q : ℚ)
  | inf (negative : Bool)
  | nan
  deriving DecidableEq

namespace Dbl

/-- Conversion of an unsigned integer to `double`. -/
def ofNat (n : Nat) : Dbl := fin (n : ℚ)

/-- Unary minus. -/
def neg : Dbl → Dbl
  | fin a => fin (-a)
  | inf s => inf (!s)
  | nan => nan

/-- Addition of doubles. -/
def add : Dbl → Dbl → Dbl
  | fin a, fin b => fin (a + b)
  | fin _, inf t => inf t
  | inf s, fin _ => inf s
  | inf s, inf t => if s = t then inf s else nan
  | nan, _ => nan
  | _, nan => nan

/-- Subtraction of doubles. -/
def sub (a b : Dbl) : Dbl := add a (neg b)

/-- Multiplication of doubles. -/
def mul : Dbl → Dbl → Dbl
  | fin a, fin b => fin (a * b)
  | fin a, inf t => if a = 0 then nan else inf (xor (decide (a < 0)) t)
  | inf s, fin b => if b = 0 then nan else inf (xor s (decide (b < 0)))
  | inf s, inf t => inf (xor s t)
  | nan, _ => nan
  | _, nan => nan

/-- Division of doubles; a zero divisor gives NaN (for `0/0`) or an infinity. -/
def div : Dbl → Dbl → Dbl
  | fin a, fin b =>
      if b = 0 then (if a = 0 then nan else inf (decide (a < 0))) else fin (a / b)
  | fin _, inf _ => fin 0
  | inf s, fin b => inf (xor s (decide (b < 0)))
  | inf _, inf _ => nan
  | nan, _ => nan
  | _, nan => nan

/-- The comparison `a < b` of doubles; false as soon as one side is NaN. -/
def lt : Dbl → Dbl → Bool
  | fin a, fin b => decide (a < b)
  | fin _, inf t => !t
  | inf s, fin _ => s
  | inf s, inf t => s && !t
  | nan, _ => false
  | _, nan => false

/-- A double lying in the half-open interval `[0, 1)`, the range of
`std::uniform_real_distribution<double> (0.0, 1.0)`. -/
def inUnit : Dbl → Bool
  | fin a => decide (0 ≤ a) && decide (a < 1)
  | _ => false

end Dbl

/-! ## `std::map` -/

/-- Model of `std::map<uint32_t, V>`: an association list kept in key order. -/
abbrev StdMap (V : Type) := List (Nat × V)

namespace StdMap

variable {V : Type}

/-- Lookup, `m.find (k)`: the value stored under `k`, or `none` for `m.end ()`. -/
def find : StdMap V → Nat → Option V
  | [], _ => none
  | (k', v) :: rest, k => if k' = k then some v else find rest k

/-- Number of entries with key `k`, `m.count (k)`. -/
def count (m : StdMap V) (k : Nat) : Nat := if (find m k).isSome then 1 else 0

/-- The assignment `m[k] = v`: overwrites the value of an existing key, inserts
the entry at its place in key order otherwise. -/
def assign : StdMap V → Nat → V → StdMap V
  | [], k, v => [(k, v)]
  | (k', v') :: rest, k, v =>
      if k < k' then (k, v) :: (k', v') :: rest
      else if k = k' then (k, v) :: rest
      else (k', v') :: assign rest k v

/-- Removal of a key, `m.erase (k)`. -/
def erase (m : StdMap V) (k : Nat) : StdMap V := m.filter (fun e => decide (e.1 ≠ k))

/-- The keys are pairwise distinct, as in every `std::map`. -/
def KeysNodup (m : StdMap V) : Prop := (m.map Prod.fst).Nodup

end StdMap

/-! ## Global state and the packet callbacks of `mlo_loss.cc` -/

/-- What the callbacks read from a `Ptr<const Packet>`: `GetUid ()`, a 64-bit
number that the callbacks narrow to `uint32_t`, and `GetSize ()`. -/
structure Packet where
  uid : Nat
  size : Nat
  deriving DecidableEq

/-- One record written to `outFile` by a callback. -/
inductive LogLine where
  /-- Record "[TX] Packet loss simulated, Node, Channel, Packet UID". -/
  | txLoss (nodeId channelId packetUid : Nat)
  /-- Record "[TX] Node, Channel, Packet Size, Time". -/
  | tx (nodeId channelId size : Nat) (time : Dbl)
  /-- Record "[RX] Packet lost, Node, Channel, UID". -/
  | rxLost (nodeId channelId packetUid : Nat)
  /-- Record "[RX] Node, Channel, Packet Size, Time, Delay". -/
  | rx (nodeId channelId size : Nat) (time delay : Dbl)
  deriving DecidableEq

/-- The global variables of `mlo_loss.cc`. -/
structure State where
  packetLossProbability : Dbl
  totalTxPackets : Nat
  totalRxPackets : Nat
  totalLostPackets : Nat
  totalDelay : Dbl
  packetSendTimeMap : StdMap Dbl
  staChannelMap : StdMap Nat
  outFile : List LogLine
  deriving DecidableEq

/-- The expression `staChannelMap.count (nodeId) ? staChannelMap[nodeId] : 0`. -/
def channelOf (staChannelMap : StdMap Nat) (nodeId : Nat) : Nat :=
  if staChannelMap.count nodeId ≠ 0 then (staChannelMap.find nodeId).getD 0 else 0

/-- The callback `PacketTxCallback`; `nodeId` is the node number read from the
context path, `currentTime` the simulator clock and `randValue` the sample
drawn from `lossDistribution`. -/
def PacketTxCallback (s : State) (nodeId : Nat) (packet : Packet)
    (currentTime randValue : Dbl) : State :=
  let channelId := channelOf s.staChannelMap nodeId
  let s1 := { s with totalTxPackets := (s.totalTxPackets + 1) % UINT32_MOD }
  let packetUid := packet.uid % UINT32_MOD
  if randValue.lt s1.packetLossProbability then
    { s1 with
      totalLostPackets := (s1.totalLostPackets + 1) % UINT32_MOD
      outFile := s1.outFile ++ [LogLine.txLoss nodeId channelId packetUid] }
  else
    { s1 with
      outFile := s1.outFile ++ [LogLine.tx nodeId channelId packet.size currentTime]
      packetSendTimeMap := s1.packetSendTimeMap.assign packetUid currentTime }

/-- The callback `PacketRxCallback`. -/
def PacketRxCallback (s : State) (nodeId : Nat) (packet : Packet)
    (currentTime : Dbl) : State :=
  let channelId := channelOf s.staChannelMap nodeId
  let packetUid := packet.uid % UINT32_MOD
  match s.packetSendTimeMap.find packetUid with
  | none =>
      { s with outFile := s.outFile ++ [LogLine.rxLost nodeId channelId packetUid] }
  | some sendTime =>
      let delay := currentTime.sub sendTime
      { s with
        totalDelay := s.totalDelay.add delay
        totalRxPackets := (s.totalRxPackets + 1) % UINT32_MOD
        outFile := s.outFile ++ [LogLine.rx nodeId channelId packet.size currentTime delay]
        packetSendTimeMap := s.packetSendTimeMap.erase packetUid }

/-- A notification delivered by the simulator to one of the two callbacks. -/
inductive Event where
  | Tx (nodeId : Nat) (packet : Packet) (currentTime randValue : Dbl)
  | Rx (nodeId : Nat) (packet : Packet) (currentTime : Dbl)
  deriving DecidableEq

/-- Dispatch of one notification to its callback. -/
def step (s : State) : Event → State
  | Event.Tx nodeId packet currentTime randValue =>
      PacketTxCallback s nodeId packet currentTime randValue
  | Event.Rx nodeId packet currentTime => PacketRxCallback s nodeId packet currentTime

/-- The effect of `Simulator::Run ()` on the globals: the notifications are
handled one after the other. -/
def run (s : State) (events : List Event) : State := events.foldl step s

/-! ## `main`: channel assignment and the summary -/

/-- The loop `for (i = 0; i < nWifi; ++i) staChannelMap[i] = i % nChannels`. -/
def assignChannels (nWifi nChannels : Nat) : StdMap Nat :=
  (List.range nWifi).foldl (fun m i => m.assign i (i % nChannels)) []

/-- The globals when `Simulator::Run ()` is entered. The source initialises
`packetLossProbability` to 0.1, `nWifi` to 5 and `nChannels` to 3 (see `shipped`);
they are arguments here so that other configurations can be stated. -/
def start (lossProbability : Dbl) (nWifi nChannels : Nat) : State :=
  { packetLossProbability := lossProbability
    totalTxPackets := 0
    totalRxPackets := 0
    totalLostPackets := 0
    totalDelay := Dbl.fin 0
    packetSendTimeMap := []
    staChannelMap := assignChannels nWifi nChannels
    outFile := [] }

/-- Line 212: `(double)totalLostPackets / totalTxPackets * 100.0`. -/
def packetLossRatio (s : State) : Dbl :=
  ((Dbl.ofNat s.totalLostPackets).div (Dbl.ofNat s.totalTxPackets)).mul (Dbl.fin 100)

/-- Line 213: `totalRxPackets > 0 ? totalDelay / totalRxPackets : 0.0`. -/
def averageDelay (s : State) : Dbl :=
  if s.totalRxPackets > 0 then s.totalDelay.div (Dbl.ofNat s.totalRxPackets) else Dbl.fin 0

/-- The unsigned 32-bit product `totalRxPackets * 1024 * 8` of line 214. -/
def receivedBits (s : State) : Nat :=
  (s.totalRxPackets * 1024 % UINT32_MOD) * 8 % UINT32_MOD

/-- Line 214: `(totalRxPackets * 1024 * 8) / simulationTime / 1e6`. -/
def throughput (s : State) (simulationTime : Dbl) : Dbl :=
  ((Dbl.ofNat (receivedBits s)).div simulationTime).div (Dbl.fin 1000000)

/-! ## Predicates on runs used in the statements -/

/-- The sample carried by a Tx notification lies in `[0, 1)`. -/
def Event.sampleInUnit : Event → Bool
  | Event.Tx _ _ _ randValue => randValue.inUnit
  | Event.Rx _ _ _ => true

/-- The notification is not a forwarded send whose (32-bit) uid still has an
outstanding send record in `s`. -/
def noConflict (s : State) : Event → Bool
  | Event.Tx _ packet _ randValue =>
      randValue.lt s.packetLossProbability ||
        (s.packetSendTimeMap.find (packet.uid % UINT32_MOD)).isNone
  | Event.Rx _ _ _ => true

/-- Along the run of `events` from `s`, no forwarded send reuses an uid that is
still in flight. -/
def conflictFree : State → List Event → Bool
  | _, [] => true
  | s, e :: rest => noConflict s e && conflictFree (step s e) rest

/-- Counters at zero and no outstanding send record, as when the program starts. -/
def Zeroed (s : State) : Prop :=
  s.totalTxPackets = 0 ∧ s.totalRxPackets = 0 ∧ s.totalLostPackets = 0 ∧
    s.packetSendTimeMap = []

/-- Accounting invariant of the counters: `a`, `b`, `c` are the numbers of Tx
notifications, of simulated losses and of matched receives seen so far. -/
def Accounted (s : State) (n : Nat) : Prop :=
  ∃ a b c : Nat, a ≤ n ∧ s.totalTxPackets = a % UINT32_MOD ∧
    s.totalLostPackets = b % UINT32_MOD ∧ s.totalRxPackets = c % UINT32_MOD ∧
    a = b + c + s.packetSendTimeMap.length ∧ StdMap.KeysNodup s.packetSendTimeMap

/-- The globals of the program as shipped when the run starts: loss probability
0.1, five stations, three channels. -/
def shipped : State := start (Dbl.fin (1 / 10)) 5 3

/-- Two forwarded sends that carry the same packet uid. -/
def reusedUidRun : List Event :=
  [Event.Tx 1 ⟨7, 1024⟩ (Dbl.fin 1) (Dbl.fin (1 / 2)),
   Event.Tx 1 ⟨7, 1024⟩ (Dbl.fin 2) (Dbl.fin (1 / 2))]

/-- A run with a forwarded and delivered send (uid 7), a simulated loss whose
packet still reaches the server (uid 8), and two sends left outstanding (uid 7
again, after its first record was resolved, and uid 9). -/
def mixedRun : List Event :=
  [Event.Tx 1 ⟨7, 1024⟩ (Dbl.fin 1) (Dbl.fin (1 / 2)),
   Event.Tx 2 ⟨8, 1024⟩ (Dbl.fin 1) (Dbl.fin 0),
   Event.Rx 0 ⟨7, 1024⟩ (Dbl.fin 2),
   Event.Rx 0 ⟨8, 1024⟩ (Dbl.fin 2),
   Event.Tx 1 ⟨7, 1024⟩ (Dbl.fin 3) (Dbl.fin (1 / 2)),
   Event.Tx 3 ⟨9, 1024⟩ (Dbl.fin 3) (Dbl.fin (1 / 2))]

/-- Three sends with samples 0, 1/2 and 9/10. -/
def threeSends : List Event :=
  [Event.Tx 1 ⟨7, 1024⟩ (Dbl.fin 1) (Dbl.fin 0),
   Event.Tx 2 ⟨8, 1024⟩ (Dbl.fin 1) (Dbl.fin (1 / 2)),
   Event.Tx 3 ⟨9, 1024⟩ (Dbl.fin 2) (Dbl.fin (9 / 10))]

/-- The globals after one forwarded send of uid 7 at time 2.0. -/
def sentAtTwo : State :=
  PacketTxCallback shipped 1 ⟨7, 1024⟩ (Dbl.fin 2) (Dbl.fin (1 / 2))

/-- The globals after one forwarded send of uid 7 at time 3.0. -/
def sentAtThree : State :=
  PacketTxCallback shipped 1 ⟨7, 1024⟩ (Dbl.fin 3) (Dbl.fin (1 / 2))

/-- A run of `n` echo exchanges: each packet is forwarded at time 1.0 (sample
1/2) and received at time 2.0. -/
def echoPairs : Nat → List Event
  | 0 => []
  | n + 1 =>
      Event.Tx 1 ⟨7, 1024⟩ (Dbl.fin 1) (Dbl.fin (1 / 2)) ::
        Event.Rx 0 ⟨7, 1024⟩ (Dbl.fin 2) :: echoPairs n

/-- The throughput formula in the words of the specification, section 4.4:
`totalRx * packetSizeBitsAssumption / durationSeconds / 1e6`, the product being
the mathematical one. -/
def throughputMbpsSpec (totalRx packetSizeBitsAssumption : Nat) (durationSeconds : Dbl) : Dbl :=
  ((Dbl.ofNat (totalRx * packetSizeBitsAssumption)).div durationSeconds).div (Dbl.fin 1000000)

end MloLoss

/-! ## Lemmas on `StdMap` -/

namespace MloLoss

namespace StdMap

variable {V : Type}

theorem find_assign_self (m : StdMap V) (k : Nat) (v : V) :
    find (assign m k v) k = some v := by
  induction m with
  | nil => simp [assign, find]
  | cons e rest ih =>
    obtain ⟨k', v'⟩ := e
    by_cases h1 : k < k'
    · simp [assign, find, h1]
    · by_cases h2 : k = k'
      · simp [assign, find, h2]
      · have h3 : ¬ k' = k := fun h => h2 h.symm
        simp [assign, find, h1, h2, h3, ih]

theorem find_assign_other (m : StdMap V) (k j : Nat) (v : V) (hj : j ≠ k) :
    find (assign m k v) j = find m j := by
  have hkj : ¬ k = j := fun h => hj h.symm
  induction m with
  | nil => simp [assign, find, hkj]
  | cons e rest ih =>
    obtain ⟨k', v'⟩ := e
    by_cases h1 : k < k'
    · simp [assign, find, h1, hkj]
    · by_cases h2 : k = k'
      · subst h2
        simp [assign, find, hkj]
      · by_cases h3 : k' = j
        · subst h3
          simp [assign, find, h1, h2]
        · simp [assign, find, h1, h2, h3, ih]

theorem find_erase_self (m : StdMap V) (k : Nat) : find (erase m k) k = none := by
  induction m with
  | nil => simp [erase, find]
  | cons e rest ih =>
    obtain ⟨k', v'⟩ := e
    by_cases h : k' = k
    · simpa [erase, h] using ih
    · simpa [erase, List.filter_cons, h, find] using ih

theorem find_erase_other (m : StdMap V) (k j : Nat) (hj : j ≠ k) :
    find (erase m k) j = find m j := by
  induction m with
  | nil => simp [erase, find]
  | cons e rest ih =>
    obtain ⟨k', v'⟩ := e
    by_cases h : k' = k
    · subst h
      have h3 : ¬ k' = j := fun h' => hj h'.symm
      simpa [erase, find, h3] using ih
    · by_cases h3 : k' = j
      · subst h3
        simp [erase, List.filter_cons, h, find]
      · simpa [erase, List.filter_cons, h, find, h3] using ih

theorem find_eq_none_iff (m : StdMap V) (k : Nat) :
    find m k = none ↔ k ∉ m.map Prod.fst := by
  induction m with
  | nil => simp [find]
  | cons e rest ih =>
    obtain ⟨k', v'⟩ := e
    by_cases h : k' = k
    · simp [find, h]
    · have h2 : ¬ k = k' := fun h' => h h'.symm
      simp only [find, h, if_false, List.map_cons, List.mem_cons, h2, false_or]
      exact ih

theorem keys_assign_perm (m : StdMap V) (k : Nat) (v : V) (h : find m k = none) :
    ((assign m k v).map Prod.fst).Perm (k :: m.map Prod.fst) := by
  induction m with
  | nil => simp [assign]
  | cons e rest ih =>
    obtain ⟨k', v'⟩ := e
    have hk : ¬ k' = k := by
      intro hk
      simp [find, hk] at h
    have hrest : find rest k = none := by simpa [find, hk] using h
    have hk2 : ¬ k = k' := fun h' => hk h'.symm
    by_cases h1 : k < k'
    · simp [assign, h1]
    · simp only [assign, h1, hk2, if_false, List.map_cons]
      exact ((ih hrest).cons k').trans (List.Perm.swap k k' _)

theorem length_assign_of_absent (m : StdMap V) (k : Nat) (v : V) (h : find m k = none) :
    (assign m k v).length = m.length + 1 := by
  have := (keys_assign_perm m k v h).length_eq
  simpa using this

theorem keysNodup_assign_of_absent (m : StdMap V) (k : Nat) (v : V)
    (h : find m k = none) (hm : KeysNodup m) : KeysNodup (assign m k v) := by
  unfold KeysNodup at *
  rw [(keys_assign_perm m k v h).nodup_iff]
  exact List.nodup_cons.mpr ⟨(find_eq_none_iff m k).mp h, hm⟩

theorem keysNodup_erase (m : StdMap V) (k : Nat) (hm : KeysNodup m) :
    KeysNodup (erase m k) := by
  unfold KeysNodup at *
  exact hm.sublist ((List.filter_sublist m).map Prod.fst)

theorem length_erase_of_present (m : StdMap V) (k : Nat) (v : V)
    (h : find m k = some v) (hm : KeysNodup m) :
    (erase m k).length + 1 = m.length := by
  induction m with
  | nil => simp [find] at h
  | cons e rest ih =>
    obtain ⟨k', v'⟩ := e
    have hrestNodup : KeysNodup rest := by
      unfold KeysNodup at *
      exact (List.nodup_cons.mp hm).2
    by_cases hk : k' = k
    · subst hk
      have hnot : k' ∉ rest.map Prod.fst := by
        unfold KeysNodup at hm
        exact (List.nodup_cons.mp hm).1
      have hfilter : erase rest k' = rest := by
        unfold erase
        rw [List.filter_eq_self]
        intro a ha
        have : a.1 ≠ k' := by
          intro h'
          exact hnot (h' ▸ List.mem_map_of_mem Prod.fst ha)
        simpa using this
      have : erase ((k', v') :: rest) k' = erase rest k' := by
        simp [erase]
      rw [this, hfilter]
      simp
    · have hrest : find rest k = some v := by simpa [find, hk] using h
      have : erase ((k', v') :: rest) k = (k', v') :: erase rest k := by
        simp [erase, List.filter_cons, hk]
      rw [this]
      simp only [List.length_cons]
      have := ih hrest hrestNodup
      omega

end StdMap

end MloLoss

/-! ## The two branches of each callback -/

namespace MloLoss

theorem tx_eq_of_drop (s : State) (nodeId : Nat) (packet : Packet) (currentTime randValue : Dbl)
    (h : randValue.lt s.packetLossProbability = true) :
    PacketTxCallback s nodeId packet currentTime randValue =
      { s with
        totalTxPackets := (s.totalTxPackets + 1) % UINT32_MOD
        totalLostPackets := (s.totalLostPackets + 1) % UINT32_MOD
        outFile := s.outFile ++
          [LogLine.txLoss nodeId (channelOf s.staChannelMap nodeId) (packet.uid % UINT32_MOD)] } := by
  simp [PacketTxCallback, h]

theorem tx_eq_of_forward (s : State) (nodeId : Nat) (packet : Packet)
    (currentTime randValue : Dbl) (h : randValue.lt s.packetLossProbability = false) :
    PacketTxCallback s nodeId packet currentTime randValue =
      { s with
        totalTxPackets := (s.totalTxPackets + 1) % UINT32_MOD
        outFile := s.outFile ++
          [LogLine.tx nodeId (channelOf s.staChannelMap nodeId) packet.size currentTime]
        packetSendTimeMap :=
          s.packetSendTimeMap.assign (packet.uid % UINT32_MOD) currentTime } := by
  simp [PacketTxCallback, h]

theorem rx_eq_of_none (s : State) (nodeId : Nat) (packet : Packet) (currentTime : Dbl)
    (h : s.packetSendTimeMap.find (packet.uid % UINT32_MOD) = none) :
    PacketRxCallback s nodeId packet currentTime =
      { s with
        outFile := s.outFile ++
          [LogLine.rxLost nodeId (channelOf s.staChannelMap nodeId) (packet.uid % UINT32_MOD)] } := by
  simp only [PacketRxCallback, h]

theorem rx_eq_of_some (s : State) (nodeId : Nat) (packet : Packet) (currentTime sendTime : Dbl)
    (h : s.packetSendTimeMap.find (packet.uid % UINT32_MOD) = some sendTime) :
    PacketRxCallback s nodeId packet currentTime =
      { s with
        totalDelay := s.totalDelay.add (currentTime.sub sendTime)
        totalRxPackets := (s.totalRxPackets + 1) % UINT32_MOD
        outFile := s.outFile ++
          [LogLine.rx nodeId (channelOf s.staChannelMap nodeId) packet.size currentTime
            (currentTime.sub sendTime)]
        packetSendTimeMap := s.packetSendTimeMap.erase (packet.uid % UINT32_MOD) } := by
  simp only [PacketRxCallback, h]

end MloLoss

/-! ## Conservation along a run -/

namespace MloLoss

theorem accounted_of_zeroed (s : State) (h : Zeroed s) : Accounted s 0 := by
  obtain ⟨h1, h2, h3, h4⟩ := h
  refine ⟨0, 0, 0, le_refl 0, ?_, ?_, ?_, ?_, ?_⟩
  · simpa using h1
  · simpa using h3
  · simpa using h2
  · simp [h4]
  · simp [h4, StdMap.KeysNodup]

theorem accounted_step (s : State) (n : Nat) (e : Event) (h : Accounted s n)
    (hc : noConflict s e = true) : Accounted (step s e) (n + 1) := by
  obtain ⟨a, b, c, han, htx, hlost, hrx, hsum, hnd⟩ := h
  cases e with
  | Tx nodeId packet currentTime randValue =>
    cases hu : randValue.lt s.packetLossProbability with
    | true =>
      rw [step, tx_eq_of_drop _ _ _ _ _ hu]
      refine ⟨a + 1, b + 1, c, by omega, ?_, ?_, hrx, ?_, hnd⟩
      · show (s.totalTxPackets + 1) % UINT32_MOD = (a + 1) % UINT32_MOD
        rw [htx]; simp [UINT32_MOD]
      · show (s.totalLostPackets + 1) % UINT32_MOD = (b + 1) % UINT32_MOD
        rw [hlost]; simp [UINT32_MOD]
      · show a + 1 = b + 1 + c + s.packetSendTimeMap.length
        omega
    | false =>
      have habs : s.packetSendTimeMap.find (packet.uid % UINT32_MOD) = none := by
        simpa [noConflict, hu] using hc
      rw [step, tx_eq_of_forward _ _ _ _ _ hu]
      refine ⟨a + 1, b, c, by omega, ?_, hlost, hrx, ?_, ?_⟩
      · show (s.totalTxPackets + 1) % UINT32_MOD = (a + 1) % UINT32_MOD
        rw [htx]; simp [UINT32_MOD]
      · show a + 1 = b + c + (s.packetSendTimeMap.assign _ _).length
        rw [StdMap.length_assign_of_absent _ _ _ habs]
        omega
      · exact StdMap.keysNodup_assign_of_absent _ _ _ habs hnd
  | Rx nodeId packet currentTime =>
    cases hfind : s.packetSendTimeMap.find (packet.uid % UINT32_MOD) with
    | none =>
      rw [step, rx_eq_of_none _ _ _ _ hfind]
      exact ⟨a, b, c, by omega, htx, hlost, hrx, hsum, hnd⟩
    | some sendTime =>
      have hlen := StdMap.length_erase_of_present _ _ _ hfind hnd
      rw [step, rx_eq_of_some _ _ _ _ _ hfind]
      refine ⟨a, b, c + 1, by omega, htx, hlost, ?_, ?_, ?_⟩
      · show (s.totalRxPackets + 1) % UINT32_MOD = (c + 1) % UINT32_MOD
        rw [hrx]; simp [UINT32_MOD]
      · show a = b + (c + 1) + (s.packetSendTimeMap.erase _).length
        omega
      · exact StdMap.keysNodup_erase _ _ hnd

theorem accounted_run (events : List Event) (s : State) (n : Nat) (h : Accounted s n)
    (hc : conflictFree s events = true) : Accounted (run s events) (n + events.length) := by
  induction events generalizing s n with
  | nil => simpa [run] using h
  | cons e rest ih =>
    simp only [conflictFree, Bool.and_eq_true] at hc
    have h1 := accounted_step s n e h hc.1
    have h2 := ih (step s e) (n + 1) h1 hc.2
    have hlen : n + (e :: rest).length = n + 1 + rest.length := by
      simp only [List.length_cons]
      omega
    rw [hlen]
    simpa [run] using h2

end MloLoss

/-! ## C1: conservation -/

namespace MloLoss

/-- C1, as stated, fails: two forwarded sends that carry the same uid leave one
send record, so that after the run `totalTx = 2` while simulated losses (0),
matched receives (0) and records left to drain (1) add up to 1. -/
theorem conservation_fails_on_reused_uid :
    Zeroed shipped ∧
    (run shipped reusedUidRun).totalTxPackets = 2 ∧
    (run shipped reusedUidRun).totalLostPackets = 0 ∧
    (run shipped reusedUidRun).totalRxPackets = 0 ∧
    (run shipped reusedUidRun).packetSendTimeMap = [(7, Dbl.fin 2)] ∧
    (run shipped reusedUidRun).totalTxPackets ≠
      (run shipped reusedUidRun).totalLostPackets + (run shipped reusedUidRun).totalRxPackets +
        (run shipped reusedUidRun).packetSendTimeMap.length := by
  refine ⟨⟨rfl, rfl, rfl, rfl⟩, ?_, ?_, ?_, ?_, ?_⟩ <;> decide!

/-- C1, amended: for every run of Tx and Rx notifications that starts from
zeroed counters and an empty send-time map and in which no forwarded send
carries an uid whose record is still outstanding, with the records left in
`packetSendTimeMap` at the end counted as the implicit losses,
`totalTx = totalLost + totalRx + outstanding` holds modulo `2^32`, and holds
exactly when the run has fewer than `2^32` notifications. -/
theorem conservation_after_drain (s0 : State) (events : List Event)
    (hzero : Zeroed s0) (hfree : conflictFree s0 events = true) :
    (run s0 events).totalTxPackets =
        ((run s0 events).totalLostPackets + (run s0 events).totalRxPackets +
          (run s0 events).packetSendTimeMap.length) % UINT32_MOD ∧
    (events.length < UINT32_MOD →
      (run s0 events).totalTxPackets =
        (run s0 events).totalLostPackets + (run s0 events).totalRxPackets +
          (run s0 events).packetSendTimeMap.length) := by
  have h := accounted_run events s0 0 (accounted_of_zeroed s0 hzero) hfree
  obtain ⟨a, b, c, han, htx, hlost, hrx, hsum, -⟩ := h
  rw [htx, hlost, hrx]
  generalize (run s0 events).packetSendTimeMap.length = l at hsum
  unfold UINT32_MOD at *
  constructor
  · omega
  · intro hlen
    omega

/-- C1, amended, on `mixedRun`: four sends, of which one is a simulated loss,
one is delivered and two are left outstanding. -/
theorem conservation_after_drain_witness :
    (Zeroed shipped ∧ conflictFree shipped mixedRun = true ∧
      mixedRun.length < UINT32_MOD) ∧
    (run shipped mixedRun).totalTxPackets = 4 ∧
    (run shipped mixedRun).totalLostPackets = 1 ∧
    (run shipped mixedRun).totalRxPackets = 1 ∧
    (run shipped mixedRun).packetSendTimeMap.length = 2 ∧
    (run shipped mixedRun).totalTxPackets =
      (run shipped mixedRun).totalLostPackets + (run shipped mixedRun).totalRxPackets +
        (run shipped mixedRun).packetSendTimeMap.length :=
  ⟨⟨⟨rfl, rfl, rfl, rfl⟩, by decide!, by decide⟩, by decide!, by decide!, by decide!, by decide!,
    (conservation_after_drain shipped mixedRun ⟨rfl, rfl, rfl, rfl⟩ (by decide!)).2 (by decide)⟩

end MloLoss

/-! ## C2: channel assignment -/

namespace MloLoss

theorem assignChannels_succ (n nChannels : Nat) :
    assignChannels (n + 1) nChannels =
      StdMap.assign (assignChannels n nChannels) n (n % nChannels) := by
  simp [assignChannels, List.range_succ, List.foldl_append]

theorem find_assignChannels (nWifi nChannels i : Nat) :
    StdMap.find (assignChannels nWifi nChannels) i =
      if i < nWifi then some (i % nChannels) else none := by
  induction nWifi with
  | zero => simp [assignChannels, StdMap.find]
  | succ n ih =>
    rw [assignChannels_succ]
    by_cases h : i = n
    · subst h
      simp [StdMap.find_assign_self]
    · rw [StdMap.find_assign_other _ _ _ _ h, ih]
      by_cases h2 : i < n
      · have h3 : i < n + 1 := by omega
        simp [h2, h3]
      · have h3 : ¬ i < n + 1 := by omega
        simp [h2, h3]

/-- C2: for every station index `i < nWifi` and every channel count
`nChannels > 0`, the station-to-channel map built by the loop of `main` maps `i`
to `i % nChannels`, and that is the channel the callbacks read back for node
`i`; being a function of `nWifi` and `nChannels` alone, the map is the same
whenever it is built from the same arguments. -/
theorem channel_assignment (lossProbability : Dbl) (nWifi nChannels i : Nat)
    (hc : 0 < nChannels) (hi : i < nWifi) :
    StdMap.find (assignChannels nWifi nChannels) i = some (i % nChannels) ∧
    (start lossProbability nWifi nChannels).staChannelMap = assignChannels nWifi nChannels ∧
    channelOf (start lossProbability nWifi nChannels).staChannelMap i = i % nChannels ∧
    i % nChannels < nChannels := by
  have hfind := find_assignChannels nWifi nChannels i
  rw [if_pos hi] at hfind
  refine ⟨hfind, rfl, ?_, Nat.mod_lt i hc⟩
  simp [channelOf, start, StdMap.count, hfind]

/-- C2 on the shipped configuration: station 4 of 5 stations on 3 channels is on
channel 1, and the whole map is 0, 1, 2, 0, 1. -/
theorem channel_assignment_witness :
    (0 < 3 ∧ 4 < 5) ∧
    assignChannels 5 3 = [(0, 0), (1, 1), (2, 2), (3, 0), (4, 1)] ∧
    StdMap.find (assignChannels 5 3) 4 = some 1 ∧
    channelOf shipped.staChannelMap 4 = 1 :=
  ⟨by decide, by decide, (channel_assignment (Dbl.fin (1 / 10)) 5 3 4 (by decide) (by decide)).1,
    (channel_assignment (Dbl.fin (1 / 10)) 5 3 4 (by decide) (by decide)).2.2.1⟩

end MloLoss

/-! ## C3: the loss decision of the Tx callback -/

namespace MloLoss

/-- C3: for every state and every sample `randValue` (in particular every one
in `[0,1)`), one Tx notification increments `totalTxPackets` by one in 32-bit
arithmetic, whatever the outcome; the packet is dropped (the loss record is
logged) iff `randValue < packetLossProbability`, and then `totalLostPackets`
is incremented by one and the send-time map is unchanged; otherwise the send
is logged, `totalLostPackets` is unchanged and the map holds the current time
under the packet uid, the records of the other uids being untouched. -/
theorem tx_callback_loss_decision (s : State) (nodeId : Nat) (packet : Packet)
    (currentTime randValue : Dbl) :
    (PacketTxCallback s nodeId packet currentTime randValue).totalTxPackets =
        (s.totalTxPackets + 1) % UINT32_MOD ∧
    (s.totalTxPackets + 1 < UINT32_MOD →
      (PacketTxCallback s nodeId packet currentTime randValue).totalTxPackets =
        s.totalTxPackets + 1) ∧
    ((PacketTxCallback s nodeId packet currentTime randValue).outFile =
        s.outFile ++ [LogLine.txLoss nodeId (channelOf s.staChannelMap nodeId)
          (packet.uid % UINT32_MOD)] ↔
      randValue.lt s.packetLossProbability = true) ∧
    (randValue.lt s.packetLossProbability = true →
      (PacketTxCallback s nodeId packet currentTime randValue).totalLostPackets =
          (s.totalLostPackets + 1) % UINT32_MOD ∧
      (s.totalLostPackets + 1 < UINT32_MOD →
        (PacketTxCallback s nodeId packet currentTime randValue).totalLostPackets =
          s.totalLostPackets + 1) ∧
      (PacketTxCallback s nodeId packet currentTime randValue).packetSendTimeMap =
          s.packetSendTimeMap) ∧
    (randValue.lt s.packetLossProbability = false →
      (PacketTxCallback s nodeId packet currentTime randValue).totalLostPackets =
          s.totalLostPackets ∧
      (PacketTxCallback s nodeId packet currentTime randValue).outFile =
          s.outFile ++ [LogLine.tx nodeId (channelOf s.staChannelMap nodeId) packet.size
            currentTime] ∧
      (PacketTxCallback s nodeId packet currentTime randValue).packetSendTimeMap =
          s.packetSendTimeMap.assign (packet.uid % UINT32_MOD) currentTime ∧
      StdMap.find (PacketTxCallback s nodeId packet currentTime randValue).packetSendTimeMap
          (packet.uid % UINT32_MOD) = some currentTime ∧
      ∀ j, j ≠ packet.uid % UINT32_MOD →
        StdMap.find (PacketTxCallback s nodeId packet currentTime randValue).packetSendTimeMap j =
          StdMap.find s.packetSendTimeMap j) := by
  cases hu : randValue.lt s.packetLossProbability with
  | true =>
    rw [tx_eq_of_drop _ _ _ _ _ hu]
    refine ⟨rfl, fun h => Nat.mod_eq_of_lt h, ⟨fun _ => rfl, fun _ => rfl⟩,
      fun _ => ⟨rfl, fun h => Nat.mod_eq_of_lt h, rfl⟩, fun h => (by cases h)⟩
  | false =>
    rw [tx_eq_of_forward _ _ _ _ _ hu]
    refine ⟨rfl, fun h => Nat.mod_eq_of_lt h, ⟨fun h => ?_, fun h => (by cases h)⟩,
      fun h => (by cases h), fun _ => ⟨rfl, rfl, rfl, ?_, ?_⟩⟩
    · have h2 := List.append_cancel_left h
      simp at h2
    · exact StdMap.find_assign_self _ _ _
    · intro j hj
      exact StdMap.find_assign_other _ _ _ _ hj

/-- C3 on the shipped state: a send of uid 7 with sample 1/2 (not below 0.1) is
forwarded and recorded at its time, a send with sample 0 is dropped. -/
theorem tx_callback_loss_decision_witness :
    (shipped.totalTxPackets + 1 < UINT32_MOD ∧
      (Dbl.fin (1 / 2)).lt shipped.packetLossProbability = false) ∧
    (PacketTxCallback shipped 1 ⟨7, 1024⟩ (Dbl.fin 2) (Dbl.fin (1 / 2))).totalTxPackets = 1 ∧
    (PacketTxCallback shipped 1 ⟨7, 1024⟩ (Dbl.fin 2) (Dbl.fin (1 / 2))).totalLostPackets = 0 ∧
    StdMap.find
      (PacketTxCallback shipped 1 ⟨7, 1024⟩ (Dbl.fin 2) (Dbl.fin (1 / 2))).packetSendTimeMap
      (7 % UINT32_MOD) = some (Dbl.fin 2) ∧
    (PacketTxCallback shipped 1 ⟨7, 1024⟩ (Dbl.fin 2) (Dbl.fin 0)).totalLostPackets = 1 :=
  ⟨⟨by decide, by decide!⟩,
    (tx_callback_loss_decision shipped 1 ⟨7, 1024⟩ (Dbl.fin 2) (Dbl.fin (1 / 2))).2.1 (by decide),
    ((tx_callback_loss_decision shipped 1 ⟨7, 1024⟩ (Dbl.fin 2) (Dbl.fin (1 / 2))).2.2.2.2
      (by decide!)).1,
    ((tx_callback_loss_decision shipped 1 ⟨7, 1024⟩ (Dbl.fin 2) (Dbl.fin (1 / 2))).2.2.2.2
      (by decide!)).2.2.2.1,
    by decide!⟩

end MloLoss

/-! ## C4: loss probability 0 and 1 -/

namespace MloLoss

theorem lt_zero_of_inUnit (u : Dbl) (h : u.inUnit = true) : u.lt (Dbl.fin 0) = false := by
  cases u with
  | fin a =>
    simp only [Dbl.inUnit, Bool.and_eq_true, decide_eq_true_eq] at h
    simp only [Dbl.lt, decide_eq_false_iff_not, not_lt]
    exact h.1
  | inf s => simp [Dbl.inUnit] at h
  | nan => simp [Dbl.inUnit] at h

theorem lt_one_of_inUnit (u : Dbl) (h : u.inUnit = true) : u.lt (Dbl.fin 1) = true := by
  cases u with
  | fin a =>
    simp only [Dbl.inUnit, Bool.and_eq_true, decide_eq_true_eq] at h
    simp only [Dbl.lt, decide_eq_true_eq]
    exact h.2
  | inf s => simp [Dbl.inUnit] at h
  | nan => simp [Dbl.inUnit] at h

theorem step_packetLossProbability (s : State) (e : Event) :
    (step s e).packetLossProbability = s.packetLossProbability := by
  cases e with
  | Tx nodeId packet currentTime randValue =>
    cases hu : randValue.lt s.packetLossProbability with
    | true => rw [step, tx_eq_of_drop _ _ _ _ _ hu]
    | false => rw [step, tx_eq_of_forward _ _ _ _ _ hu]
  | Rx nodeId packet currentTime =>
    cases hfind : s.packetSendTimeMap.find (packet.uid % UINT32_MOD) with
    | none => rw [step, rx_eq_of_none _ _ _ _ hfind]
    | some sendTime => rw [step, rx_eq_of_some _ _ _ _ _ hfind]

theorem step_lost_of_never (s : State) (e : Event) (hp : s.packetLossProbability = Dbl.fin 0)
    (he : e.sampleInUnit = true) : (step s e).totalLostPackets = s.totalLostPackets := by
  cases e with
  | Tx nodeId packet currentTime randValue =>
    have hu : randValue.lt s.packetLossProbability = false := by
      rw [hp]
      exact lt_zero_of_inUnit randValue he
    rw [step, tx_eq_of_forward _ _ _ _ _ hu]
  | Rx nodeId packet currentTime =>
    cases hfind : s.packetSendTimeMap.find (packet.uid % UINT32_MOD) with
    | none => rw [step, rx_eq_of_none _ _ _ _ hfind]
    | some sendTime => rw [step, rx_eq_of_some _ _ _ _ _ hfind]

theorem step_lost_of_always (s : State) (e : Event) (hp : s.packetLossProbability = Dbl.fin 1)
    (he : e.sampleInUnit = true) (heq : s.totalLostPackets = s.totalTxPackets) :
    (step s e).totalLostPackets = (step s e).totalTxPackets := by
  cases e with
  | Tx nodeId packet currentTime randValue =>
    have hu : randValue.lt s.packetLossProbability = true := by
      rw [hp]
      exact lt_one_of_inUnit randValue he
    rw [step, tx_eq_of_drop _ _ _ _ _ hu]
    show (s.totalLostPackets + 1) % UINT32_MOD = (s.totalTxPackets + 1) % UINT32_MOD
    rw [heq]
  | Rx nodeId packet currentTime =>
    cases hfind : s.packetSendTimeMap.find (packet.uid % UINT32_MOD) with
    | none =>
      rw [step, rx_eq_of_none _ _ _ _ hfind]
      exact heq
    | some sendTime =>
      rw [step, rx_eq_of_some _ _ _ _ _ hfind]
      exact heq

theorem run_lost_of_never (events : List Event) (s : State)
    (hp : s.packetLossProbability = Dbl.fin 0)
    (he : ∀ e ∈ events, e.sampleInUnit = true) :
    (run s events).totalLostPackets = s.totalLostPackets := by
  induction events generalizing s with
  | nil => rfl
  | cons e rest ih =>
    have h1 := step_lost_of_never s e hp (he e (List.mem_cons_self e rest))
    have hp1 : (step s e).packetLossProbability = Dbl.fin 0 := by
      rw [step_packetLossProbability, hp]
    have h2 := ih (step s e) hp1 (fun x hx => he x (List.mem_cons_of_mem e hx))
    show (run (step s e) rest).totalLostPackets = s.totalLostPackets
    rw [h2, h1]

theorem run_lost_of_always (events : List Event) (s : State)
    (hp : s.packetLossProbability = Dbl.fin 1)
    (he : ∀ e ∈ events, e.sampleInUnit = true)
    (heq : s.totalLostPackets = s.totalTxPackets) :
    (run s events).totalLostPackets = (run s events).totalTxPackets := by
  induction events generalizing s with
  | nil => exact heq
  | cons e rest ih =>
    have h1 := step_lost_of_always s e hp (he e (List.mem_cons_self e rest)) heq
    have hp1 : (step s e).packetLossProbability = Dbl.fin 1 := by
      rw [step_packetLossProbability, hp]
    exact ih (step s e) hp1 (fun x hx => he x (List.mem_cons_of_mem e hx)) h1

/-- C4: for every run from zeroed counters whose Tx notifications carry
samples in `[0,1)` (receives may be interleaved), with `packetLossProbability`
equal to 0 `totalLostPackets` is 0 at the end, and with `packetLossProbability`
equal to 1 `totalLostPackets` equals `totalTxPackets` at the end. -/
theorem loss_probability_boundaries (s0 : State) (events : List Event)
    (hzero : Zeroed s0) (hsamples : ∀ e ∈ events, e.sampleInUnit = true) :
    (s0.packetLossProbability = Dbl.fin 0 → (run s0 events).totalLostPackets = 0) ∧
    (s0.packetLossProbability = Dbl.fin 1 →
      (run s0 events).totalLostPackets = (run s0 events).totalTxPackets) := by
  obtain ⟨htx, -, hlost, -⟩ := hzero
  constructor
  · intro hp
    rw [run_lost_of_never events s0 hp hsamples, hlost]
  · intro hp
    exact run_lost_of_always events s0 hp hsamples (by rw [hlost, htx])

/-- C4 on three sends with samples 0, 1/2 and 9/10: no loss with probability 0,
three losses out of three sends with probability 1. -/
theorem loss_probability_boundaries_witness :
    (Zeroed (start (Dbl.fin 0) 5 3) ∧ Zeroed (start (Dbl.fin 1) 5 3) ∧
      ∀ e ∈ threeSends, e.sampleInUnit = true) ∧
    (run (start (Dbl.fin 0) 5 3) threeSends).totalTxPackets = 3 ∧
    (run (start (Dbl.fin 0) 5 3) threeSends).totalLostPackets = 0 ∧
    (run (start (Dbl.fin 1) 5 3) threeSends).totalTxPackets = 3 ∧
    (run (start (Dbl.fin 1) 5 3) threeSends).totalLostPackets =
      (run (start (Dbl.fin 1) 5 3) threeSends).totalTxPackets :=
  ⟨⟨⟨rfl, rfl, rfl, rfl⟩, ⟨rfl, rfl, rfl, rfl⟩, by decide!⟩, by decide!,
    (loss_probability_boundaries (start (Dbl.fin 0) 5 3) threeSends ⟨rfl, rfl, rfl, rfl⟩
      (by decide!)).1 rfl,
    by decide!,
    (loss_probability_boundaries (start (Dbl.fin 1) 5 3) threeSends ⟨rfl, rfl, rfl, rfl⟩
      (by decide!)).2 rfl⟩

end MloLoss

/-! ## C5: delay of a matched receive -/

namespace MloLoss

/-- C5: for every state in which the packet uid has an outstanding send record
with time `sendTime`, a receive of that uid at `currentTime` is logged as
received with delay `currentTime - sendTime`, adds that delay to `totalDelay`,
increments `totalRxPackets` by one in 32-bit arithmetic, removes the record of
that uid and leaves the record of every other uid, and the other counters, as
they were. -/
theorem rx_callback_delivered (s : State) (nodeId : Nat) (packet : Packet)
    (currentTime sendTime : Dbl)
    (hrec : s.packetSendTimeMap.find (packet.uid % UINT32_MOD) = some sendTime) :
    (PacketRxCallback s nodeId packet currentTime).outFile =
        s.outFile ++ [LogLine.rx nodeId (channelOf s.staChannelMap nodeId) packet.size
          currentTime (currentTime.sub sendTime)] ∧
    (PacketRxCallback s nodeId packet currentTime).totalDelay =
        s.totalDelay.add (currentTime.sub sendTime) ∧
    (PacketRxCallback s nodeId packet currentTime).totalRxPackets =
        (s.totalRxPackets + 1) % UINT32_MOD ∧
    (s.totalRxPackets + 1 < UINT32_MOD →
      (PacketRxCallback s nodeId packet currentTime).totalRxPackets = s.totalRxPackets + 1) ∧
    StdMap.find (PacketRxCallback s nodeId packet currentTime).packetSendTimeMap
        (packet.uid % UINT32_MOD) = none ∧
    (∀ j, j ≠ packet.uid % UINT32_MOD →
      StdMap.find (PacketRxCallback s nodeId packet currentTime).packetSendTimeMap j =
        StdMap.find s.packetSendTimeMap j) ∧
    (PacketRxCallback s nodeId packet currentTime).totalTxPackets = s.totalTxPackets ∧
    (PacketRxCallback s nodeId packet currentTime).totalLostPackets = s.totalLostPackets := by
  rw [rx_eq_of_some _ _ _ _ _ hrec]
  refine ⟨rfl, rfl, rfl, fun h => Nat.mod_eq_of_lt h, ?_, ?_, rfl, rfl⟩
  · exact StdMap.find_erase_self _ _
  · intro j hj
    exact StdMap.find_erase_other _ _ _ hj

/-- C5 on the example of the specification: uid 7 sent at 2.0 and received at
2.5 is delivered with delay 0.5, which becomes the delay sum. -/
theorem rx_callback_delivered_witness :
    sentAtTwo.packetSendTimeMap.find (7 % UINT32_MOD) = some (Dbl.fin 2) ∧
    (Dbl.fin (5 / 2)).sub (Dbl.fin 2) = Dbl.fin (1 / 2) ∧
    sentAtTwo.totalDelay.add ((Dbl.fin (5 / 2)).sub (Dbl.fin 2)) = Dbl.fin (1 / 2) ∧
    (PacketRxCallback sentAtTwo 0 ⟨7, 1024⟩ (Dbl.fin (5 / 2))).outFile =
      sentAtTwo.outFile ++ [LogLine.rx 0 (channelOf sentAtTwo.staChannelMap 0) 1024
        (Dbl.fin (5 / 2)) ((Dbl.fin (5 / 2)).sub (Dbl.fin 2))] ∧
    (PacketRxCallback sentAtTwo 0 ⟨7, 1024⟩ (Dbl.fin (5 / 2))).totalDelay =
      sentAtTwo.totalDelay.add ((Dbl.fin (5 / 2)).sub (Dbl.fin 2)) ∧
    sentAtTwo.totalRxPackets = 0 ∧
    (PacketRxCallback sentAtTwo 0 ⟨7, 1024⟩ (Dbl.fin (5 / 2))).totalRxPackets =
      sentAtTwo.totalRxPackets + 1 :=
  ⟨by decide!, by decide!, by decide!,
    (rx_callback_delivered sentAtTwo 0 ⟨7, 1024⟩ (Dbl.fin (5 / 2)) (Dbl.fin 2) (by decide!)).1,
    (rx_callback_delivered sentAtTwo 0 ⟨7, 1024⟩ (Dbl.fin (5 / 2)) (Dbl.fin 2) (by decide!)).2.1,
    by decide!,
    (rx_callback_delivered sentAtTwo 0 ⟨7, 1024⟩ (Dbl.fin (5 / 2)) (Dbl.fin 2)
      (by decide!)).2.2.2.1 (by decide!)⟩

end MloLoss

/-! ## C6: receive without a send record -/

namespace MloLoss

/-- C6, as stated, fails: after one forwarded send of uid 7, a receive of uid 9,
which has no send record, leaves `totalLostPackets`, the only loss count of the
program and the one the loss ratio is computed from, at 0 instead of raising
it to 1, and the loss ratio stays 0. -/
theorem rx_unmatched_not_counted :
    sentAtTwo.packetSendTimeMap.find (9 % UINT32_MOD) = none ∧
    sentAtTwo.totalLostPackets = 0 ∧
    (PacketRxCallback sentAtTwo 0 ⟨9, 1024⟩ (Dbl.fin 3)).totalLostPackets = 0 ∧
    (PacketRxCallback sentAtTwo 0 ⟨9, 1024⟩ (Dbl.fin 3)).totalLostPackets ≠
      (sentAtTwo.totalLostPackets + 1) % UINT32_MOD ∧
    packetLossRatio (PacketRxCallback sentAtTwo 0 ⟨9, 1024⟩ (Dbl.fin 3)) = Dbl.fin 0 := by
  refine ⟨?_, ?_, ?_, ?_, ?_⟩ <;> decide!

/-- C6, amended: for every state and every packet uid without an outstanding
send record, a receive of that uid only appends the "[RX] Packet lost" record
to the log: `totalLostPackets`, `totalTxPackets`, `totalRxPackets`,
`totalDelay`, the send-time map and hence the loss ratio are unchanged, so the
loss is recorded in no statistic. -/
theorem rx_callback_unmatched (s : State) (nodeId : Nat) (packet : Packet) (currentTime : Dbl)
    (hrec : s.packetSendTimeMap.find (packet.uid % UINT32_MOD) = none) :
    PacketRxCallback s nodeId packet currentTime =
      { s with outFile := s.outFile ++
          [LogLine.rxLost nodeId (channelOf s.staChannelMap nodeId) (packet.uid % UINT32_MOD)] } ∧
    (PacketRxCallback s nodeId packet currentTime).totalLostPackets = s.totalLostPackets ∧
    (PacketRxCallback s nodeId packet currentTime).totalTxPackets = s.totalTxPackets ∧
    (PacketRxCallback s nodeId packet currentTime).totalRxPackets = s.totalRxPackets ∧
    (PacketRxCallback s nodeId packet currentTime).totalDelay = s.totalDelay ∧
    (PacketRxCallback s nodeId packet currentTime).packetSendTimeMap = s.packetSendTimeMap ∧
    packetLossRatio (PacketRxCallback s nodeId packet currentTime) = packetLossRatio s := by
  rw [rx_eq_of_none _ _ _ _ hrec]
  exact ⟨rfl, rfl, rfl, rfl, rfl, rfl, rfl⟩

/-- C6, amended, on a receive of uid 9 after one forwarded send of uid 7. -/
theorem rx_callback_unmatched_witness :
    sentAtTwo.packetSendTimeMap.find (9 % UINT32_MOD) = none ∧
    (PacketRxCallback sentAtTwo 0 ⟨9, 1024⟩ (Dbl.fin 3)).outFile =
      [LogLine.tx 1 1 1024 (Dbl.fin 2), LogLine.rxLost 0 0 9] ∧
    (PacketRxCallback sentAtTwo 0 ⟨9, 1024⟩ (Dbl.fin 3)).totalLostPackets =
      sentAtTwo.totalLostPackets ∧
    (PacketRxCallback sentAtTwo 0 ⟨9, 1024⟩ (Dbl.fin 3)).packetSendTimeMap =
      sentAtTwo.packetSendTimeMap :=
  ⟨by decide!, by decide!,
    (rx_callback_unmatched sentAtTwo 0 ⟨9, 1024⟩ (Dbl.fin 3) (by decide!)).2.1,
    (rx_callback_unmatched sentAtTwo 0 ⟨9, 1024⟩ (Dbl.fin 3) (by decide!)).2.2.2.2.2.1⟩

end MloLoss


/-! ## C7, C8, C9: the summary computed by `main` -/

namespace MloLoss

theorem packetLossRatio_of_pos (s : State) (h : 0 < s.totalTxPackets) :
    packetLossRatio s =
      Dbl.fin ((s.totalLostPackets : ℚ) / (s.totalTxPackets : ℚ) * 100) := by
  have hne : (s.totalTxPackets : ℚ) ≠ 0 := by
    exact_mod_cast (Nat.pos_iff_ne_zero.mp h)
  simp [packetLossRatio, Dbl.ofNat, Dbl.div, Dbl.mul, hne]

theorem packetLossRatio_of_zero (s : State) (htx : s.totalTxPackets = 0)
    (hlost : s.totalLostPackets = 0) : packetLossRatio s = Dbl.nan := by
  simp [packetLossRatio, Dbl.ofNat, Dbl.div, Dbl.mul, htx, hlost]

/-- C7 fails on the code: line 212 divides by `totalTxPackets` without a guard,
so after a run without any Tx notification the loss ratio is `0.0 / 0`, that
is NaN and not 0, whereas the average delay of the next line, which is guarded,
is 0. -/
theorem loss_ratio_of_empty_run :
    (run shipped []).totalTxPackets = 0 ∧
    packetLossRatio (run shipped []) = Dbl.nan ∧
    packetLossRatio (run shipped []) ≠ Dbl.fin 0 ∧
    averageDelay (run shipped []) = Dbl.fin 0 := by
  refine ⟨?_, ?_, ?_, ?_⟩ <;> decide

/-- C8: for every final state, the average delay is `totalDelay / totalRxPackets`
when `totalRxPackets > 0`, the quotient of the two numbers when the delay sum
is finite, and 0 when `totalRxPackets = 0`. -/
theorem average_delay_guarded (s : State) :
    (0 < s.totalRxPackets → averageDelay s = s.totalDelay.div (Dbl.ofNat s.totalRxPackets)) ∧
    (∀ d : ℚ, 0 < s.totalRxPackets → s.totalDelay = Dbl.fin d →
      averageDelay s = Dbl.fin (d / (s.totalRxPackets : ℚ))) ∧
    (s.totalRxPackets = 0 → averageDelay s = Dbl.fin 0) := by
  refine ⟨fun h => ?_, fun d h hd => ?_, fun h => ?_⟩
  · simp [averageDelay, h]
  · have hne : (s.totalRxPackets : ℚ) ≠ 0 := by
      exact_mod_cast (Nat.pos_iff_ne_zero.mp h)
    simp [averageDelay, h, hd, Dbl.ofNat, Dbl.div, hne]
  · simp [averageDelay, h]

/-- C8 on two states: after `mixedRun` (one delivery with delay 1.0) the average
delay is 1.0, and before any receive it is 0. -/
theorem average_delay_guarded_witness :
    (0 < (run shipped mixedRun).totalRxPackets ∧
      (run shipped mixedRun).totalDelay = Dbl.fin 1 ∧ shipped.totalRxPackets = 0) ∧
    averageDelay (run shipped mixedRun) =
      Dbl.fin (1 / ((run shipped mixedRun).totalRxPackets : ℚ)) ∧
    averageDelay shipped = Dbl.fin 0 :=
  ⟨⟨by decide!, by decide!, rfl⟩,
    (average_delay_guarded (run shipped mixedRun)).2.1 1 (by decide!) (by decide!),
    (average_delay_guarded shipped).2.2 rfl⟩

theorem receivedBits_of_small (s : State) (h : s.totalRxPackets < 524288) :
    receivedBits s = s.totalRxPackets * (1024 * 8) := by
  unfold receivedBits UINT32_MOD
  omega

theorem throughput_of_small (s : State) (simulationTime : Dbl)
    (h : s.totalRxPackets < 524288) :
    throughput s simulationTime = throughputMbpsSpec s.totalRxPackets (1024 * 8) simulationTime := by
  unfold throughput throughputMbpsSpec
  rw [receivedBits_of_small s h]

theorem echoPair_effect (s : State)
    (hp : s.packetLossProbability = Dbl.fin (1 / 10)) (hmap : s.packetSendTimeMap = []) :
    (step (step s (Event.Tx 1 ⟨7, 1024⟩ (Dbl.fin 1) (Dbl.fin (1 / 2))))
        (Event.Rx 0 ⟨7, 1024⟩ (Dbl.fin 2))).packetLossProbability = Dbl.fin (1 / 10) ∧
    (step (step s (Event.Tx 1 ⟨7, 1024⟩ (Dbl.fin 1) (Dbl.fin (1 / 2))))
        (Event.Rx 0 ⟨7, 1024⟩ (Dbl.fin 2))).packetSendTimeMap = [] ∧
    (step (step s (Event.Tx 1 ⟨7, 1024⟩ (Dbl.fin 1) (Dbl.fin (1 / 2))))
        (Event.Rx 0 ⟨7, 1024⟩ (Dbl.fin 2))).totalRxPackets =
      (s.totalRxPackets + 1) % UINT32_MOD := by
  have hu : (Dbl.fin (1 / 2)).lt s.packetLossProbability = false := by
    rw [hp]
    decide!
  have h1 : step s (Event.Tx 1 ⟨7, 1024⟩ (Dbl.fin 1) (Dbl.fin (1 / 2))) =
      PacketTxCallback s 1 ⟨7, 1024⟩ (Dbl.fin 1) (Dbl.fin (1 / 2)) := rfl
  rw [h1, tx_eq_of_forward _ _ _ _ _ hu, hmap]
  have hfind : StdMap.find (StdMap.assign ([] : StdMap Dbl) ((7 : Nat) % UINT32_MOD) (Dbl.fin 1))
      ((7 : Nat) % UINT32_MOD) = some (Dbl.fin 1) := StdMap.find_assign_self _ _ _
  rw [step, rx_eq_of_some _ _ _ _ (Dbl.fin 1) hfind]
  refine ⟨hp, ?_, rfl⟩
  show StdMap.erase (StdMap.assign ([] : StdMap Dbl) ((7 : Nat) % UINT32_MOD) (Dbl.fin 1))
      ((7 : Nat) % UINT32_MOD) = []
  simp [StdMap.assign, StdMap.erase]

theorem run_echoPairs (n : Nat) (s : State)
    (hp : s.packetLossProbability = Dbl.fin (1 / 10)) (hmap : s.packetSendTimeMap = [])
    (hrx : s.totalRxPackets < UINT32_MOD) :
    (run s (echoPairs n)).totalRxPackets = (s.totalRxPackets + n) % UINT32_MOD := by
  induction n generalizing s with
  | zero =>
    show s.totalRxPackets = (s.totalRxPackets + 0) % UINT32_MOD
    rw [Nat.add_zero, Nat.mod_eq_of_lt hrx]
  | succ k ih =>
    obtain ⟨hp2, hmap2, hrx2⟩ := echoPair_effect s hp hmap
    have hlt : (step (step s (Event.Tx 1 ⟨7, 1024⟩ (Dbl.fin 1) (Dbl.fin (1 / 2))))
        (Event.Rx 0 ⟨7, 1024⟩ (Dbl.fin 2))).totalRxPackets < UINT32_MOD := by
      rw [hrx2]
      exact Nat.mod_lt _ (by decide)
    have h := ih _ hp2 hmap2 hlt
    show (run (step (step s (Event.Tx 1 ⟨7, 1024⟩ (Dbl.fin 1) (Dbl.fin (1 / 2))))
        (Event.Rx 0 ⟨7, 1024⟩ (Dbl.fin 2))) (echoPairs k)).totalRxPackets =
      (s.totalRxPackets + (k + 1)) % UINT32_MOD
    rw [h, hrx2]
    unfold UINT32_MOD
    omega

theorem receivedBits_of_524288 (s : State) (h : s.totalRxPackets = 524288) :
    receivedBits s = 0 := by
  unfold receivedBits
  rw [h]
  decide

theorem throughput_of_no_bits (s : State) (h : receivedBits s = 0) :
    throughput s (Dbl.fin 6) = Dbl.fin 0 := by
  unfold throughput
  rw [h]
  decide!

theorem throughputMbpsSpec_524288_ne_zero :
    throughputMbpsSpec 524288 (1024 * 8) (Dbl.fin 6) ≠ Dbl.fin 0 := by
  decide!

theorem totalRxPackets_echoPairs_524288 :
    (run shipped (echoPairs 524288)).totalRxPackets = 524288 :=
  (run_echoPairs 524288 shipped rfl rfl (by decide)).trans (by decide)

theorem throughput_ne_spec_of_524288 (s : State) (h : s.totalRxPackets = 524288) :
    throughput s (Dbl.fin 6) ≠ throughputMbpsSpec s.totalRxPackets (1024 * 8) (Dbl.fin 6) := by
  rw [throughput_of_no_bits s (receivedBits_of_524288 s h), h]
  exact fun hzero => throughputMbpsSpec_524288_ne_zero hzero.symm

/-- C9 fails on the code: line 214 multiplies in unsigned 32-bit arithmetic, so
after a run of `2^19 = 524288` delivered packets the product
`totalRxPackets * 1024 * 8` has wrapped to 0 and the throughput over 6 seconds
is 0 Mbps, whereas the formula of the specification, with the mathematical
product `2^32` bits, is not 0. -/
theorem throughput_wraps_at_524288 :
    (run shipped (echoPairs 524288)).totalRxPackets = 524288 ∧
    receivedBits (run shipped (echoPairs 524288)) = 0 ∧
    throughput (run shipped (echoPairs 524288)) (Dbl.fin 6) = Dbl.fin 0 ∧
    throughputMbpsSpec 524288 (1024 * 8) (Dbl.fin 6) ≠ Dbl.fin 0 ∧
    throughput (run shipped (echoPairs 524288)) (Dbl.fin 6) ≠
      throughputMbpsSpec (run shipped (echoPairs 524288)).totalRxPackets (1024 * 8)
        (Dbl.fin 6) :=
  ⟨totalRxPackets_echoPairs_524288,
    receivedBits_of_524288 _ totalRxPackets_echoPairs_524288,
    throughput_of_no_bits _ (receivedBits_of_524288 _ totalRxPackets_echoPairs_524288),
    throughputMbpsSpec_524288_ne_zero,
    throughput_ne_spec_of_524288 _ totalRxPackets_echoPairs_524288⟩

end MloLoss

/-! ## C10: receive earlier than the recorded send -/

namespace MloLoss

/-- C10, as stated, fails: with a send record of uid 7 at time 3.0, a receive of
uid 7 at time 2.0 has the negative delay -1.0, and the callback adds it to
`totalDelay` (0 before, -1 after), counts the packet as received and logs the
ordinary receive record. -/
theorem negative_delay_accumulated :
    sentAtThree.packetSendTimeMap.find (7 % UINT32_MOD) = some (Dbl.fin 3) ∧
    ((Dbl.fin 2).sub (Dbl.fin 3)).lt (Dbl.fin 0) = true ∧
    sentAtThree.totalDelay = Dbl.fin 0 ∧
    (PacketRxCallback sentAtThree 0 ⟨7, 1024⟩ (Dbl.fin 2)).totalDelay = Dbl.fin (-1) ∧
    (PacketRxCallback sentAtThree 0 ⟨7, 1024⟩ (Dbl.fin 2)).totalDelay ≠ sentAtThree.totalDelay ∧
    averageDelay (PacketRxCallback sentAtThree 0 ⟨7, 1024⟩ (Dbl.fin 2)) = Dbl.fin (-1) := by
  refine ⟨?_, ?_, ?_, ?_, ?_, ?_⟩ <;> decide!

/-- C10, amended: the callback has no out-of-order check. For every receive
whose matching send record is later than the receive time (negative delay),
the callback does what it does for any matched receive: it logs the ordinary
receive record with the negative delay, adds the negative delay to
`totalDelay`, increments `totalRxPackets` and removes the record. -/
theorem rx_callback_negative_delay (s : State) (nodeId : Nat) (packet : Packet)
    (currentTime sendTime : Dbl)
    (hrec : s.packetSendTimeMap.find (packet.uid % UINT32_MOD) = some sendTime)
    (_hneg : (currentTime.sub sendTime).lt (Dbl.fin 0) = true) :
    (PacketRxCallback s nodeId packet currentTime).outFile =
        s.outFile ++ [LogLine.rx nodeId (channelOf s.staChannelMap nodeId) packet.size
          currentTime (currentTime.sub sendTime)] ∧
    (PacketRxCallback s nodeId packet currentTime).totalDelay =
        s.totalDelay.add (currentTime.sub sendTime) ∧
    (PacketRxCallback s nodeId packet currentTime).totalRxPackets =
        (s.totalRxPackets + 1) % UINT32_MOD ∧
    StdMap.find (PacketRxCallback s nodeId packet currentTime).packetSendTimeMap
        (packet.uid % UINT32_MOD) = none := by
  rw [rx_eq_of_some _ _ _ _ _ hrec]
  exact ⟨rfl, rfl, rfl, StdMap.find_erase_self _ _⟩

/-- C10, amended, on a receive of uid 7 at time 2.0 whose send is recorded at
time 3.0: the ordinary receive record is logged with the delay `2.0 - 3.0`, and
that delay is added to the delay sum. -/
theorem rx_callback_negative_delay_witness :
    (sentAtThree.packetSendTimeMap.find (7 % UINT32_MOD) = some (Dbl.fin 3) ∧
      ((Dbl.fin 2).sub (Dbl.fin 3)).lt (Dbl.fin 0) = true) ∧
    (PacketRxCallback sentAtThree 0 ⟨7, 1024⟩ (Dbl.fin 2)).outFile =
      sentAtThree.outFile ++ [LogLine.rx 0 (channelOf sentAtThree.staChannelMap 0) 1024
        (Dbl.fin 2) ((Dbl.fin 2).sub (Dbl.fin 3))] ∧
    (PacketRxCallback sentAtThree 0 ⟨7, 1024⟩ (Dbl.fin 2)).totalDelay =
      sentAtThree.totalDelay.add ((Dbl.fin 2).sub (Dbl.fin 3)) ∧
    (PacketRxCallback sentAtThree 0 ⟨7, 1024⟩ (Dbl.fin 2)).totalRxPackets =
      (sentAtThree.totalRxPackets + 1) % UINT32_MOD :=
  ⟨⟨by decide!, by decide!⟩,
    (rx_callback_negative_delay sentAtThree 0 ⟨7, 1024⟩ (Dbl.fin 2) (Dbl.fin 3)
      (by decide!) (by decide!)).1,
    (rx_callback_negative_delay sentAtThree 0 ⟨7, 1024⟩ (Dbl.fin 2) (Dbl.fin 3)
      (by decide!) (by decide!)).2.1,
    (rx_callback_negative_delay sentAtThree 0 ⟨7, 1024⟩ (Dbl.fin 2) (Dbl.fin 3)
      (by decide!) (by decide!)).2.2.1⟩

end MloLoss
